import Mathlib

/-!
Verification of the OAuth2 scheme (`src/@nuxtjs-alt/auth/src/runtime/schemes/oauth2.ts`)
against its natural-language specification.

The TypeScript class `Oauth2Scheme` is shallowly embedded: each method becomes a pure
Lean function over explicit inputs (the values returned by collaborator calls such as
`this.token.sync()` or `this.refreshToken.status().expired()`) and an explicit record of
the storage / effect state it manipulates.  JavaScript string truthiness (`undefined`,
`null` and `""` are falsy) is modelled by `truthy` over `Option String`.
-/

/-- JavaScript truthiness of a string-or-nullish value: `none` models
`undefined` / `null`, and the empty string is falsy as well. -/
def truthy : Option String → Bool
  | none => false
  | some s => s != ""

/-- JavaScript `a || b` over string-or-nullish values: yields `a` when `a` is
truthy, otherwise `b`. -/
def jsOr (a b : Option String) : Option String :=
  if truthy a then a else b

/-- The record literal returned by `Oauth2Scheme.check` (oauth2.ts lines 125-130). -/
structure SchemeCheck where
  valid : Bool
  tokenExpired : Bool
  refreshTokenExpired : Bool
  isRefreshable : Bool
  deriving DecidableEq, Repr

/-- Embedding of `Oauth2Scheme.check` (oauth2.ts lines 124-165).

Inputs stand for the values the method obtains from its collaborators:
`token` is the result of `this.token.sync()`, `tokenExpired` is
`this.token.status().expired()` and `refreshTokenExpired` is
`this.refreshToken.status().expired()`.  The control flow mirrors the source:
the response starts as `(false, false, false, true)`; a falsy token returns it
unchanged; with `checkStatus` disabled presence alone is valid; otherwise
refresh-token expiry is tested first, then access-token expiry. -/
def check (token : Option String) (tokenExpired refreshTokenExpired : Bool)
    (checkStatus : Bool) : SchemeCheck :=
  let response : SchemeCheck :=
    { valid := false, tokenExpired := false, refreshTokenExpired := false, isRefreshable := true }
  if !truthy token then
    response
  else if !checkStatus then
    { response with valid := true }
  else if refreshTokenExpired then
    { response with refreshTokenExpired := true }
  else if tokenExpired then
    { response with tokenExpired := true }
  else
    { response with valid := true }

/-- C2: with a token present and `checkStatus = true`, at most one of
`valid`, `tokenExpired`, `refreshTokenExpired` is set, and refresh-token
expiry takes priority: when both tokens are expired the result reports
`refreshTokenExpired = true` and `tokenExpired = false`. -/
theorem check_severity_priority (token : Option String)
    (tokenExpired refreshTokenExpired : Bool)
    (hpresent : truthy token = true) :
    ((check token tokenExpired refreshTokenExpired true).valid.toNat
      + (check token tokenExpired refreshTokenExpired true).tokenExpired.toNat
      + (check token tokenExpired refreshTokenExpired true).refreshTokenExpired.toNat ≤ 1)
    ∧ (refreshTokenExpired = true → tokenExpired = true →
        (check token tokenExpired refreshTokenExpired true).refreshTokenExpired = true
        ∧ (check token tokenExpired refreshTokenExpired true).tokenExpired = false) := by
  cases tokenExpired <;> cases refreshTokenExpired <;>
    simp [check, hpresent]

/-- Witness for `check_severity_priority` at a concrete state with both
tokens expired. -/
theorem check_severity_priority_witness :
    truthy (some "tok") = true
    ∧ (check (some "tok") true true true).refreshTokenExpired = true
    ∧ (check (some "tok") true true true).tokenExpired = false :=
  ⟨by decide,
    ((check_severity_priority (some "tok") true true (by decide)).2 rfl rfl).1,
    ((check_severity_priority (some "tok") true true (by decide)).2 rfl rfl).2⟩

/-- C9: every result of `check`, for every token / refresh-token state and
both values of `checkStatus`, has `isRefreshable = true` — the field is set
once in the initial response literal and never modified. -/
theorem check_isRefreshable_always_true (token : Option String)
    (tokenExpired refreshTokenExpired checkStatus : Bool) :
    (check token tokenExpired refreshTokenExpired checkStatus).isRefreshable = true := by
  cases h : truthy token <;> cases checkStatus <;>
    cases tokenExpired <;> cases refreshTokenExpired <;>
      simp [check, h]

/-- The option fields of the scheme that `#handleCallback` consults
(oauth2.ts lines 336-417): `this.options.token.property`,
`this.options.refreshToken.property` (a string or `false`, hence optional),
`this.options.responseType`, `this.options.codeChallengeMethod`,
`this.options.clientWindow` and `this.$auth.options.watchLoggedIn`. -/
structure CallbackOptions where
  tokenProperty : String
  refreshTokenProperty : Option String
  responseType : String
  codeChallengeMethod : Option String
  clientWindow : Bool
  watchLoggedIn : Bool

/-- The environment `#handleCallback` reads: whether the current route is the
configured callback route (the `normalizePath` comparison at line 339),
whether execution is server side (line 343), the parsed query and fragment
parameter lists (lines 347-348), the token and refresh-token fields the
authorization-code exchange response yields via `getProp` (lines 390-391),
and whether `window.opener` is set (line 407). -/
structure CallbackEnv where
  routeIsCallback : Bool
  isServer : Bool
  query : List (String × String)
  hash : List (String × String)
  exchangeToken : Option String
  exchangeRefreshToken : Option String
  hasOpener : Bool

/-- The storage and token-store cells `#handleCallback` mutates:
`storage[name + ".state"]`, `storage[name + ".pkce_code_verifier"]`, the
Token store value and the RefreshToken store value. -/
structure CallbackStore where
  storedState : Option String
  storedVerifier : Option String
  tokenValue : Option String
  refreshTokenValue : Option String
  deriving DecidableEq, Repr

/-- The observable outcome of one `#handleCallback` run: the final store,
whether a token-endpoint POST was issued (line 375), whether `reset` was
invoked (never — the method has no reset call), whether
`this.$auth.redirect("home")` ran (line 414, the `return true` path), and
whether a message was posted to `window.opener` (line 408). -/
structure CallbackResult where
  store : CallbackStore
  requestMade : Bool
  resetCalled : Bool
  redirected : Bool
  postedMessage : Bool
  deriving DecidableEq, Repr

/-- `Object.assign(\x7b\x7d, route.query, hash)` (oauth2.ts line 348): the
fragment parameters override the query parameters. -/
def lookupMerged (env : CallbackEnv) (key : String) : Option String :=
  match List.lookup key env.hash with
  | some v => some v
  | none => List.lookup key env.query

/-- The `-- Authorization Code Grant --` guard at oauth2.ts line 366:
`this.options.responseType === "code" && parsedQuery.code`. -/
def codeGrantTaken (opts : CallbackOptions) (env : CallbackEnv) : Bool :=
  opts.responseType == "code" && truthy (lookupMerged env "code")

/-- The token value `#handleCallback` ends up with after the optional
code-grant exchange: on the code-grant path the exchange result wins over the
URL-parsed token via `||` (line 390), otherwise it is the merged-parameter
field named by `token.property` (line 350). -/
def resolvedToken (opts : CallbackOptions) (env : CallbackEnv) : Option String :=
  if codeGrantTaken opts env then
    jsOr env.exchangeToken (lookupMerged env opts.tokenProperty)
  else
    lookupMerged env opts.tokenProperty

/-- The refresh-token value after the optional code-grant exchange
(oauth2.ts lines 354-356 and 391). -/
def resolvedRefreshToken (opts : CallbackOptions) (env : CallbackEnv) : Option String :=
  let fromUrl : Option String :=
    match opts.refreshTokenProperty with
    | some p => if p != "" then lookupMerged env p else none
    | none => none
  if codeGrantTaken opts env then jsOr env.exchangeRefreshToken fromUrl else fromUrl

/-- The tail of `#handleCallback` from line 394 on: bail out on a falsy
token, otherwise write the Token store (line 399), write the RefreshToken
store when the refresh token is truthy (lines 402-404), then either post a
message to the opener (client-window mode, lines 406-411) or redirect home
(lines 413-416). -/
def finishCallback (opts : CallbackOptions) (env : CallbackEnv) (s : CallbackStore)
    (requestMade : Bool) (token refreshToken : Option String) : CallbackResult :=
  if !truthy token then
    ⟨s, requestMade, false, false, false⟩
  else
    let s3 := { s with tokenValue := token }
    let s4 := if truthy refreshToken then { s3 with refreshTokenValue := refreshToken } else s3
    if opts.clientWindow then
      ⟨s4, requestMade, false, false, env.hasOpener⟩
    else if opts.watchLoggedIn then
      ⟨s4, requestMade, false, true, false⟩
    else
      ⟨s4, requestMade, false, false, false⟩

/-- `finishCallback` never touches the stored anti-forgery state cell. -/
theorem finishCallback_storedState (opts : CallbackOptions) (env : CallbackEnv)
    (s : CallbackStore) (rm : Bool) (t rt : Option String) :
    (finishCallback opts env s rm t rt).store.storedState = s.storedState := by
  unfold finishCallback
  cases h1 : truthy t <;> cases h2 : truthy rt <;>
    cases h3 : opts.clientWindow <;> cases h4 : opts.watchLoggedIn <;>
      simp [h1, h2, h3, h4]

/-- Embedding of `Oauth2Scheme.#handleCallback` (oauth2.ts lines 336-417).

Route and server guards first (lines 339-345); then the stored state is read
and unconditionally overwritten with `null` (lines 359-360); the mismatch
guard `state && parsedQuery.state !== state` returns silently (lines
361-363); the authorization-code branch deletes the PKCE verifier from
storage when a non-`implicit` challenge method is configured (lines
370-373) and issues the token-endpoint POST (line 375); finally the
resolved token and refresh token are written by `finishCallback`. -/
def handleCallback (opts : CallbackOptions) (env : CallbackEnv) (s : CallbackStore) :
    CallbackResult :=
  if !env.routeIsCallback then
    ⟨s, false, false, false, false⟩
  else if env.isServer then
    ⟨s, false, false, false, false⟩
  else
    let st := s.storedState
    let s1 := { s with storedState := none }
    if truthy st && (lookupMerged env "state" != st) then
      ⟨s1, false, false, false, false⟩
    else if codeGrantTaken opts env then
      let useVerifier : Bool :=
        match opts.codeChallengeMethod with
        | some m => m != "" && m != "implicit"
        | none => false
      let s2 := if useVerifier then { s1 with storedVerifier := none } else s1
      finishCallback opts env s2 true (resolvedToken opts env) (resolvedRefreshToken opts env)
    else
      finishCallback opts env s1 false (resolvedToken opts env) (resolvedRefreshToken opts env)

/-- C1: in `#handleCallback` the stored anti-forgery state is deleted
unconditionally once the route and server guards pass, and when a truthy
state is stored but differs from the callback's `state` parameter the
callback is a silent no-op: no Token or RefreshToken store write, no reset,
no redirect (and no token-endpoint request either). -/
theorem handleCallback_state_mismatch_noop (opts : CallbackOptions)
    (env : CallbackEnv) (s : CallbackStore)
    (hroute : env.routeIsCallback = true) (hserver : env.isServer = false) :
    ((handleCallback opts env s).store.storedState = none)
    ∧ (∀ sv : String, s.storedState = some sv → sv ≠ "" →
        lookupMerged env "state" ≠ some sv →
        handleCallback opts env s =
          ⟨{ s with storedState := none }, false, false, false, false⟩) := by
  constructor
  · cases hm : (truthy s.storedState && (lookupMerged env "state" != s.storedState)) with
    | true => simp [handleCallback, hroute, hserver, hm]
    | false =>
      cases hc : codeGrantTaken opts env with
      | false =>
        simp [handleCallback, hroute, hserver, hm, hc, finishCallback_storedState]
      | true =>
        cases hccm : opts.codeChallengeMethod with
        | none =>
          simp [handleCallback, hroute, hserver, hm, hc, hccm, finishCallback_storedState]
        | some m =>
          cases hv : (m != "" && m != "implicit") with
          | true =>
            simp [handleCallback, hroute, hserver, hm, hc, hccm, hv,
              finishCallback_storedState]
          | false =>
            simp [handleCallback, hroute, hserver, hm, hc, hccm, hv,
              finishCallback_storedState]
  · intro sv hsv hne hmismatch
    have htr : truthy s.storedState = true := by
      rw [hsv]; simpa [truthy] using hne
    have hbne : (lookupMerged env "state" != s.storedState) = true := by
      rw [hsv]; simpa using hmismatch
    simp [handleCallback, hroute, hserver, htr, hbne]

/-- Witness for `handleCallback_state_mismatch_noop`: a concrete callback
whose `state` parameter is "evil" while "good" is stored. -/
theorem handleCallback_state_mismatch_noop_witness :
    handleCallback
      ⟨"access_token", some "refresh_token", "token", none, false, true⟩
      ⟨true, false, [("state", "evil"), ("access_token", "T1")], [], none, none, false⟩
      ⟨some "good", none, none, none⟩ =
      ⟨⟨none, none, none, none⟩, false, false, false, false⟩ :=
  (handleCallback_state_mismatch_noop
    ⟨"access_token", some "refresh_token", "token", none, false, true⟩
    ⟨true, false, [("state", "evil"), ("access_token", "T1")], [], none, none, false⟩
    ⟨some "good", none, none, none⟩ rfl rfl).2 "good" rfl
    (by decide) (by decide)

/-- When the resolved token is truthy, `finishCallback` writes it to the
Token store. -/
theorem finishCallback_tokenValue (opts : CallbackOptions) (env : CallbackEnv)
    (s : CallbackStore) (rm : Bool) (t rt : Option String)
    (ht : truthy t = true) :
    (finishCallback opts env s rm t rt).store.tokenValue = t := by
  unfold finishCallback
  cases h2 : truthy rt <;> cases h3 : opts.clientWindow <;>
    cases h4 : opts.watchLoggedIn <;> simp [ht, h2, h3, h4]

/-- C10: `#handleCallback` rejects for state mismatch only when a truthy
state is stored.  With no stored state (absent, `null`, or empty) the
comparison passes vacuously and any callback whose merged parameters (and
optional code-grant exchange) resolve to a usable token writes that token to
the Token store — regardless of the callback's own `state` parameter, which
the hypotheses never mention. -/
theorem handleCallback_vacuous_state_writes_token (opts : CallbackOptions)
    (env : CallbackEnv) (s : CallbackStore)
    (hroute : env.routeIsCallback = true) (hserver : env.isServer = false)
    (hstate : truthy s.storedState = false)
    (htok : truthy (resolvedToken opts env) = true) :
    (handleCallback opts env s).store.tokenValue = resolvedToken opts env := by
  have hm : (truthy s.storedState && (lookupMerged env "state" != s.storedState)) = false := by
    simp [hstate]
  cases hc : codeGrantTaken opts env with
  | false =>
    simp [handleCallback, hroute, hserver, hm, hc, finishCallback_tokenValue, htok]
  | true =>
    cases hccm : opts.codeChallengeMethod with
    | none =>
      simp [handleCallback, hroute, hserver, hm, hc, hccm,
        finishCallback_tokenValue, htok]
    | some m =>
      cases hv : (m != "" && m != "implicit") with
      | true =>
        simp [handleCallback, hroute, hserver, hm, hc, hccm, hv,
          finishCallback_tokenValue, htok]
      | false =>
        simp [handleCallback, hroute, hserver, hm, hc, hccm, hv,
          finishCallback_tokenValue, htok]

/-- Witness for `handleCallback_vacuous_state_writes_token`: no state is
stored, the callback carries an arbitrary `state` value, and the token is
still written. -/
theorem handleCallback_vacuous_state_writes_token_witness :
    truthy (none : Option String) = false
    ∧ (handleCallback
        ⟨"access_token", none, "token", none, false, false⟩
        ⟨true, false, [("access_token", "T1"), ("state", "forged")], [], none, none, false⟩
        ⟨none, none, none, none⟩).store.tokenValue = some "T1" :=
  ⟨by decide,
    handleCallback_vacuous_state_writes_token
      ⟨"access_token", none, "token", none, false, false⟩
      ⟨true, false, [("access_token", "T1"), ("state", "forged")], [], none, none, false⟩
      ⟨none, none, none, none⟩ rfl rfl (by decide) (by decide)⟩

/-- The token / refresh-token fields `updateTokens` extracts from the refresh
response via `getProp` (oauth2.ts lines 465-467). -/
structure TokenResponse where
  token : Option String
  refreshToken : Option String
  deriving DecidableEq, Repr

/-- The observable effects of one `refreshTokens` run (oauth2.ts lines
419-463): whether `this.$auth.reset()` ran (line 433), whether an
`ExpiredAuthSessionError` was thrown (line 435), whether the stale
authorization header was cleared via `requestHandler.clearHeader()` (line
439), whether the token-endpoint POST was issued (line 441), whether the
error callback ran and the promise was rejected (lines 455-458), and the
arguments of the `token.set` / `refreshToken.set` calls made by
`updateTokens` (outer `none` = the store was not written). -/
structure RefreshEffects where
  resetCalled : Bool
  threwExpired : Bool
  clearedHeader : Bool
  requestMade : Bool
  errorCallbackCalled : Bool
  rejected : Bool
  tokenWritten : Option (Option String)
  refreshTokenWritten : Option String
  deriving DecidableEq, Repr

/-- Embedding of `Oauth2Scheme.refreshTokens` (oauth2.ts lines 419-463)
together with `updateTokens` (lines 465-474).

`refreshTokenVal` is the value of `this.refreshToken.get()`,
`refreshExpired` is `this.refreshToken.status().expired()`, and `exchange`
models the outcome of the token-endpoint POST: `Except.error` a transport
failure, `Except.ok` a response with its `getProp`-extracted fields.
Control flow mirrors the source: falsy refresh token returns with no
effects; an expired refresh token resets and throws without any request;
otherwise the header is cleared, the POST issued, and on success
`updateTokens` sets the Token store unconditionally and the RefreshToken
store only for a truthy refresh token. -/
def refreshTokens (refreshTokenVal : Option String) (refreshExpired : Bool)
    (exchange : Except Unit TokenResponse) : RefreshEffects :=
  if !truthy refreshTokenVal then
    ⟨false, false, false, false, false, false, none, none⟩
  else if refreshExpired then
    ⟨true, true, false, false, false, false, none, none⟩
  else
    match exchange with
    | Except.error _ => ⟨false, false, true, true, true, true, none, none⟩
    | Except.ok resp =>
        ⟨false, false, true, true, false, false, some resp.token,
          if truthy resp.refreshToken then resp.refreshToken else none⟩

/-- C5: `refreshTokens` is a no-op without a refresh token; with an expired
refresh token it resets and throws `ExpiredAuthSessionError` without issuing
any request; otherwise it clears the stale header, posts the refresh
exchange, and on success writes the returned tokens through the Token and
RefreshToken stores. -/
theorem refreshTokens_spec (refreshTokenVal : Option String)
    (refreshExpired : Bool) (exchange : Except Unit TokenResponse) :
    (truthy refreshTokenVal = false →
      refreshTokens refreshTokenVal refreshExpired exchange =
        ⟨false, false, false, false, false, false, none, none⟩)
    ∧ (truthy refreshTokenVal = true → refreshExpired = true →
        (refreshTokens refreshTokenVal refreshExpired exchange).resetCalled = true
        ∧ (refreshTokens refreshTokenVal refreshExpired exchange).threwExpired = true
        ∧ (refreshTokens refreshTokenVal refreshExpired exchange).requestMade = false)
    ∧ (truthy refreshTokenVal = true → refreshExpired = false →
        ∀ resp : TokenResponse, exchange = Except.ok resp →
          (refreshTokens refreshTokenVal refreshExpired exchange).clearedHeader = true
          ∧ (refreshTokens refreshTokenVal refreshExpired exchange).requestMade = true
          ∧ (refreshTokens refreshTokenVal refreshExpired exchange).tokenWritten
              = some resp.token
          ∧ (truthy resp.refreshToken = true →
              (refreshTokens refreshTokenVal refreshExpired exchange).refreshTokenWritten
                = resp.refreshToken)) := by
  refine ⟨fun h => ?_, fun h he => ?_, fun h he resp hr => ?_⟩
  · simp [refreshTokens, h]
  · simp [refreshTokens, h, he]
  · subst hr
    cases hrt : truthy resp.refreshToken <;>
      simp [refreshTokens, h, he, hrt]

/-- Witness for `refreshTokens_spec`: the expired-refresh-token branch at a
concrete state — reset and the expired-session throw happen, no request is
issued. -/
theorem refreshTokens_spec_witness :
    truthy (some "R1") = true
    ∧ (refreshTokens (some "R1") true (Except.ok ⟨some "T2", some "R2"⟩)).resetCalled = true
    ∧ (refreshTokens (some "R1") true (Except.ok ⟨some "T2", some "R2"⟩)).threwExpired = true
    ∧ (refreshTokens (some "R1") true (Except.ok ⟨some "T2", some "R2"⟩)).requestMade = false :=
  ⟨by decide,
    ((refreshTokens_spec (some "R1") true (Except.ok ⟨some "T2", some "R2"⟩)).2.1
      (by decide) rfl).1,
    ((refreshTokens_spec (some "R1") true (Except.ok ⟨some "T2", some "R2"⟩)).2.1
      (by decide) rfl).2.1,
    ((refreshTokens_spec (some "R1") true (Except.ok ⟨some "T2", some "R2"⟩)).2.1
      (by decide) rfl).2.2⟩

/-- Modelled from the spec: the `RefreshController` class is imported from
`../inc` (oauth2.ts line 5) and instantiated at oauth2.ts line 104, but its
source is not part of the provided files.  Spec section 4.4: it serializes
concurrent refresh attempts into one in-flight operation; a refresh
requested while one is running returns the pending result instead of
issuing a second token-endpoint request, and on completion the in-flight
marker is cleared so subsequent refreshes proceed.  The state is the
in-flight marker: `none` when idle, `some opId` while the operation
identified by `opId` is pending. -/
structure RefreshControllerState where
  inflight : Option Nat
  deriving DecidableEq, Repr

/-- Modelled from the spec: one call to the controller's refresh entry
point.  `freshId` identifies the operation a new request would start.
Returns the operation whose result this caller will observe, the new
controller state, and whether a token-endpoint request was issued. -/
def handleRefresh (s : RefreshControllerState) (freshId : Nat) :
    Nat × RefreshControllerState × Bool :=
  match s.inflight with
  | some pending => (pending, s, false)
  | none => (freshId, ⟨some freshId⟩, true)

/-- Modelled from the spec: completion (success or failure) of the pending
refresh clears the in-flight marker. -/
def completeRefresh (_ : RefreshControllerState) : RefreshControllerState :=
  ⟨none⟩

/-- A burst of overlapping refresh calls, none of which completes before the
next arrives: folds `handleRefresh` over the callers' prospective operation
ids, collecting each caller's observed operation, the final state, and the
number of token-endpoint requests issued. -/
def runRefreshBurst : RefreshControllerState → List Nat →
    List Nat × RefreshControllerState × Nat
  | s, [] => ([], s, 0)
  | s, i :: rest =>
    let step := handleRefresh s i
    let tail := runRefreshBurst step.2.1 rest
    (step.1 :: tail.1, tail.2.1, tail.2.2 + (if step.2.2 then 1 else 0))

/-- While an operation is pending, every further caller observes that same
operation and no request is issued. -/
theorem runRefreshBurst_pending (p : Nat) :
    ∀ (ids : List Nat) (s : RefreshControllerState), s.inflight = some p →
      runRefreshBurst s ids = (List.replicate ids.length p, s, 0) := by
  intro ids
  induction ids with
  | nil => intro s hs; simp [runRefreshBurst]
  | cons i rest ih =>
    intro s hs
    have hstep : handleRefresh s i = (p, s, false) := by
      unfold handleRefresh; rw [hs]
    simp [runRefreshBurst, hstep, ih s hs, List.replicate_succ]

/-- C4: single-flight refresh.  Starting idle, a burst of overlapping
refresh calls issues exactly one token-endpoint request, every caller
observes the first caller's operation (hence the same outcome, success or
failure alike), and completing the operation clears the in-flight marker so
the next refresh issues a request again. -/
theorem refreshController_single_flight (i : Nat) (rest : List Nat)
    (s0 : RefreshControllerState) (hidle : s0.inflight = none) :
    runRefreshBurst s0 (i :: rest) =
      (i :: List.replicate rest.length i, ⟨some i⟩, 1)
    ∧ (∀ s : RefreshControllerState, (completeRefresh s).inflight = none)
    ∧ (∀ j : Nat, handleRefresh (completeRefresh ⟨some i⟩) j = (j, ⟨some j⟩, true)) := by
  refine ⟨?_, fun s => rfl, fun j => rfl⟩
  have hstep : handleRefresh s0 i = (i, ⟨some i⟩, true) := by
    unfold handleRefresh; rw [hidle]
  simp [runRefreshBurst, hstep, runRefreshBurst_pending i rest ⟨some i⟩ rfl]

/-- Witness for `refreshController_single_flight`: three overlapping calls
from the idle state issue a single request and all observe operation 7. -/
theorem refreshController_single_flight_witness :
    runRefreshBurst ⟨none⟩ [7, 8, 9] = ([7, 7, 7], ⟨some 7⟩, 1) :=
  (refreshController_single_flight 7 [8, 9] ⟨none⟩ rfl).1

/-- The lowercase hexadecimal digits, in order. -/
def hexDigits : List Char :=
  ("0123456789abcdef").data

/-- The hexadecimal digit of a value below 16 (out-of-range indices fall
back to '0', never reached on the arguments used below). -/
def hexDigit (n : Nat) : Char :=
  hexDigits.getD n '0'

/-- One element of the `Array.from(array, dec => ("0" + dec.toString(16)).slice(-2))`
mapping (oauth2.ts line 487): prepending "0" and keeping the last two
characters of the lowercase hex expansion yields exactly the two hex digits
of the value's low byte `dec % 256`. -/
def toHex2 (dec : Nat) : List Char :=
  [hexDigit (dec % 256 / 16), hexDigit (dec % 16)]

/-- Embedding of `Oauth2Scheme.generateRandomString` (oauth2.ts lines
484-488).  `randomValues` models the contents of the `Uint32Array(28)`
filled by `window.crypto.getRandomValues`; the result is the
concatenation (`join("")`) of the two-hex-digit low byte of each element. -/
def generateRandomString (randomValues : List Nat) : String :=
  ⟨(randomValues.map toHex2).flatten⟩

/-- Decodes consecutive pairs of hex digits back to byte values: the
inverse direction used to show the output faithfully carries its bytes. -/
def decodeHexPairs : List Char → List Nat
  | c1 :: c2 :: rest => (hexDigits.indexOf c1 * 16 + hexDigits.indexOf c2) :: decodeHexPairs rest
  | _ => []

/-- Decoding inverts `toHex2` up to the low byte. -/
theorem decodeHexPairs_flatten (l : List Nat) :
    decodeHexPairs ((l.map toHex2).flatten) = l.map (· % 256) := by
  induction l with
  | nil => rfl
  | cons dec rest ih =>
    have h1 : dec % 256 / 16 < 16 := by omega
    have h2 : dec % 16 < 16 := by omega
    have hidx : ∀ a : Nat, a < 16 → hexDigits.indexOf (hexDigit a) = a := by decide
    have harith : dec % 256 / 16 * 16 + dec % 16 = dec % 256 := by omega
    simp [decodeHexPairs, toHex2, hidx _ h1, hidx _ h2, harith, ih]

/-- Every character `toHex2` emits is a hexadecimal digit. -/
theorem toHex2_mem_hexDigits (dec : Nat) : ∀ c ∈ toHex2 dec, c ∈ hexDigits := by
  have hgetD : ∀ n : Nat, hexDigits.getD n '0' ∈ hexDigits := by
    intro n
    by_cases h : n < hexDigits.length
    · rw [List.getD_eq_getElem hexDigits '0' h]
      exact List.getElem_mem h
    · rw [List.getD_eq_default hexDigits '0' (Nat.le_of_not_lt h)]
      decide
  intro c hc
  simp only [toHex2, List.mem_cons, List.not_mem_nil, or_false] at hc
  rcases hc with h | h <;> { subst h; exact hgetD _ }

/-- C6: on a 28-element random draw, `generateRandomString` produces a
56-character string made only of hex digits, from which the 28 random bytes
(the low byte of each 32-bit draw) are recoverable pairwise — i.e. the
output represents exactly 28 random bytes, each as two hex characters. -/
theorem generateRandomString_entropy (randomValues : List Nat)
    (hlen : randomValues.length = 28) :
    (generateRandomString randomValues).length = 56
    ∧ decodeHexPairs (generateRandomString randomValues).data
        = randomValues.map (· % 256)
    ∧ (randomValues.map (· % 256)).length = 28
    ∧ (∀ c ∈ (generateRandomString randomValues).data, c ∈ hexDigits) := by
  have hflat : ∀ l : List Nat, ((l.map toHex2).flatten).length = 2 * l.length := by
    intro l
    induction l with
    | nil => rfl
    | cons dec rest ih =>
      simp only [List.map_cons, List.flatten_cons, List.length_append, ih, toHex2]
      simp [Nat.mul_succ, Nat.add_comm]
  refine ⟨?_, decodeHexPairs_flatten randomValues, by simp [hlen], ?_⟩
  · show ((randomValues.map toHex2).flatten).length = 56
    rw [hflat, hlen]
  · intro c hc
    have : c ∈ (randomValues.map toHex2).flatten := hc
    rw [List.mem_flatten] at this
    obtain ⟨blk, hblk, hcblk⟩ := this
    rw [List.mem_map] at hblk
    obtain ⟨dec, _, hdec⟩ := hblk
    exact toHex2_mem_hexDigits dec c (hdec ▸ hcblk)

/-- Witness for `generateRandomString_entropy` on a concrete 28-element
draw. -/
theorem generateRandomString_entropy_witness :
    (List.range 28).length = 28
    ∧ (generateRandomString (List.range 28)).length = 56 :=
  ⟨by decide, (generateRandomString_entropy (List.range 28) (by decide)).1⟩

/-- `haystack` starts with `needle` (character-list version of the prefix
test underlying JavaScript `String.prototype.includes`). -/
def listStarts : List Char → List Char → Bool
  | _, [] => true
  | [], _ :: _ => false
  | c :: cs, n :: ns => c == n && listStarts cs ns

/-- JavaScript `haystack.includes(needle)` over character lists: some suffix
of the haystack starts with the needle. -/
def listContains : List Char → List Char → Bool
  | [], needle => needle.isEmpty
  | c :: cs, needle => listStarts (c :: cs) needle || listContains cs needle

/-- Embedding of the nonce guard of `Oauth2Scheme.login` (oauth2.ts line
228): `opts.response_type.includes("token") ||
opts.response_type.includes("id_token")` decides whether a `nonce`
parameter is added to the authorization request (line 229). -/
def loginNonceAdded (responseType : String) : Bool :=
  listContains responseType.data ("token".data)
    || listContains responseType.data ("id_token".data)

/-- Follows the claim's words, for comparison with `loginNonceAdded`: a
response type "implies an identity token" when it contains the `id_token`
response-type component. -/
def impliesIdentityToken (responseType : String) : Bool :=
  listContains responseType.data ("id_token".data)

/-- Counterexample to C7 as stated: for the configured response type
`"token"` — the implicit flow for an access token, which implies no
identity token — `login` nevertheless adds a nonce, because the source
condition tests `includes("token")`, not identity-token semantics. -/
theorem loginNonceAdded_not_iff_identity :
    loginNonceAdded "token" = true ∧ impliesIdentityToken "token" = false := by
  constructor <;> rfl

/-- A haystack that starts with `pre ++ post` contains `post`. -/
theorem listContains_of_listStarts_append (pre : List Char) :
    ∀ (hay post : List Char), listStarts hay (pre ++ post) = true →
      listContains hay post = true := by
  induction pre with
  | nil =>
    intro hay post h
    cases hay with
    | nil =>
      cases post with
      | nil => rfl
      | cons p ps => simp [listStarts] at h
    | cons c cs =>
      have h2 : listStarts (c :: cs) post = true := by simpa using h
      simp [listContains, h2]
  | cons x xs ih =>
    intro hay post h
    cases hay with
    | nil => simp [listStarts] at h
    | cons c cs =>
      simp only [List.cons_append, listStarts, Bool.and_eq_true] at h
      have := ih cs post h.2
      simp [listContains, this]

/-- Containing `pre ++ post` implies containing `post`. -/
theorem listContains_append_right (pre post : List Char) :
    ∀ hay : List Char, listContains hay (pre ++ post) = true →
      listContains hay post = true := by
  intro hay
  induction hay with
  | nil =>
    intro h
    simp only [listContains, List.isEmpty_iff, List.append_eq_nil] at h ⊢
    exact h.2
  | cons c cs ih =>
    intro h
    simp only [listContains, Bool.or_eq_true] at h ⊢
    rcases h with h | h
    · rcases Bool.or_eq_true _ _ |>.mp
        (by simpa [listContains] using listContains_of_listStarts_append pre (c :: cs) post h) with h2 | h2
      · exact Or.inl h2
      · exact Or.inr h2
    · exact Or.inr (ih h)

/-- C7 amended: `login` adds a nonce exactly when the configured response
type contains `"token"` as a substring — a condition subsuming `"id_token"`
(so every identity-token response type gets a nonce, but so does the plain
implicit `"token"` flow); in particular the `"code"` response type never
gets a nonce. -/
theorem loginNonceAdded_iff_contains_token (responseType : String) :
    loginNonceAdded responseType = listContains responseType.data ("token".data)
    ∧ loginNonceAdded "code" = false := by
  refine ⟨?_, rfl⟩
  unfold loginNonceAdded
  cases hid : listContains responseType.data ("id_token".data) with
  | false => simp
  | true =>
    have : listContains responseType.data ("token".data) = true := by
      have := listContains_append_right ("id_".data) ("token".data) responseType.data
      exact this (by simpa using hid)
    simp [this]

/-- The possible states of the private field `#clientWindowReference`
(oauth2.ts line 90): the field is declared without an initializer, so it
starts as JavaScript `undefined`; the popup-liveness interval later writes
`null` (line 282); otherwise it holds a window handle that is either open
or closed. -/
inductive WindowRef
  | undef
  | nullRef
  | win (closed : Bool)
  deriving DecidableEq, Repr

/-- The initial value of `#clientWindowReference`: a class field with no
initializer is `undefined`. -/
def initialClientWindowReference : WindowRef := WindowRef.undef

/-- JavaScript strict equality `ref === null`. -/
def jsStrictEqNull : WindowRef → Bool
  | WindowRef.nullRef => true
  | _ => false

/-- JavaScript property access `ref.closed`: throws a `TypeError` (modelled
as `Except.error`) on `undefined` and on `null`. -/
def jsClosedAccess : WindowRef → Except Unit Bool
  | WindowRef.win c => Except.ok c
  | _ => Except.error ()

/-- Evaluation of the popup guard
`this.#clientWindowReference === null || this.#clientWindowReference!.closed`
(oauth2.ts line 264) with JavaScript short-circuit semantics: the TypeScript
`!` assertion has no runtime effect, so when the first disjunct is false the
`closed` access happens on whatever the field holds. -/
def clientWindowCondition (ref : WindowRef) : Except Unit Bool :=
  if jsStrictEqNull ref then Except.ok true else jsClosedAccess ref

/-- What the popup branch of `login` (oauth2.ts lines 263-288) does to the
window: open a fresh named popup when the guard is true, focus the existing
one when it is false, or propagate the thrown `TypeError`. -/
inductive PopupAction
  | opensNew
  | focusesExisting
  deriving DecidableEq, Repr

/-- One step of the popup branch of `login`: evaluate the guard and select
the action. -/
def clientWindowStep (ref : WindowRef) : Except Unit PopupAction :=
  match clientWindowCondition ref with
  | Except.error e => Except.error e
  | Except.ok true => Except.ok PopupAction.opensNew
  | Except.ok false => Except.ok PopupAction.focusesExisting

/-- C8 (code bug): on the very first popup login the handle field still
holds `undefined`, `undefined === null` is false, and the guard then
evaluates `undefined.closed`, which throws a `TypeError` — no popup opens,
contradicting the claim that the first popup login opens a new window.  The
remaining cases behave as claimed: a cleared (`null`) or closed handle opens
a new popup, a live handle is focused instead. -/
theorem clientWindowStep_first_login_throws :
    clientWindowStep initialClientWindowReference = Except.error ()
    ∧ clientWindowStep WindowRef.nullRef = Except.ok PopupAction.opensNew
    ∧ clientWindowStep (WindowRef.win true) = Except.ok PopupAction.opensNew
    ∧ clientWindowStep (WindowRef.win false) = Except.ok PopupAction.focusesExisting := by
  refine ⟨rfl, rfl, rfl, rfl⟩

/-- `2 ^ 32`, the modulus of the 32-bit word arithmetic of SHA-256. -/
def MOD32 : Nat := 4294967296

/-- Right rotation of a 32-bit word by `n` places. -/
def rotr32 (n x : Nat) : Nat :=
  (x / 2 ^ n + x % 2 ^ n * 2 ^ (32 - n)) % MOD32

/-- The SHA-256 choice function `Ch`. -/
def chFn (x y z : Nat) : Nat :=
  (x &&& y) ^^^ ((x ^^^ 4294967295) &&& z)

/-- The SHA-256 majority function `Maj`. -/
def majFn (x y z : Nat) : Nat :=
  (x &&& y) ^^^ (x &&& z) ^^^ (y &&& z)

/-- The SHA-256 compression functions Σ0 and Σ1. -/
def bigSigma0 (x : Nat) : Nat := rotr32 2 x ^^^ rotr32 13 x ^^^ rotr32 22 x

/-- Σ1. -/
def bigSigma1 (x : Nat) : Nat := rotr32 6 x ^^^ rotr32 11 x ^^^ rotr32 25 x

/-- The SHA-256 message-schedule functions σ0 and σ1. -/
def smallSigma0 (x : Nat) : Nat := rotr32 7 x ^^^ rotr32 18 x ^^^ x / 2 ^ 3

/-- σ1. -/
def smallSigma1 (x : Nat) : Nat := rotr32 17 x ^^^ rotr32 19 x ^^^ x / 2 ^ 10

/-- The eight SHA-256 working variables. -/
structure Sha256State where
  a : Nat
  b : Nat
  c : Nat
  d : Nat
  e : Nat
  f : Nat
  g : Nat
  h : Nat
  deriving DecidableEq, Repr

/-- The SHA-256 initial hash value (FIPS 180-4, section 5.3.3). -/
def initialHash : Sha256State :=
  ⟨1779033703, 3144134277, 1013904242, 2773480762,
   1359893119, 2600822924, 528734635, 1541459225⟩

/-- The 64 SHA-256 round constants (FIPS 180-4, section 4.2.2). -/
def roundConstants : List Nat :=
  [1116352408, 1899447441, 3049323471, 3921009573, 961987163,
   1508970993, 2453635748, 2870763221, 3624381080, 310598401,
   607225278, 1426881987, 1925078388, 2162078206, 2614888103,
   3248222580, 3835390401, 4022224774, 264347078, 604807628,
   770255983, 1249150122, 1555081692, 1996064986, 2554220882,
   2821834349, 2952996808, 3210313671, 3336571891, 3584528711,
   113926993, 338241895, 666307205, 773529912, 1294757372,
   1396182291, 1695183700, 1986661051, 2177026350, 2456956037,
   2730485921, 2820302411, 3259730800, 3345764771, 3516065817,
   3600352804, 4094571909, 275423344, 430227734, 506948616,
   659060556, 883997877, 958139571, 1322822218, 1537002063,
   1747873779, 1955562222, 2024104815, 2227730452, 2361852424,
   2428436474, 2756734187, 3204031479, 3329325298]

/-- One SHA-256 round: `kw` pairs the round constant with the schedule
word. -/
def roundStep (st : Sha256State) (kw : Nat × Nat) : Sha256State :=
  let t1 := (st.h + bigSigma1 st.e + chFn st.e st.f st.g + kw.1 + kw.2) % MOD32
  let t2 := (bigSigma0 st.a + majFn st.a st.b st.c) % MOD32
  ⟨(t1 + t2) % MOD32, st.a, st.b, st.c, (st.d + t1) % MOD32, st.e, st.f, st.g⟩

/-- Extends the 16-word message schedule by `fuel` further words. -/
def scheduleExtend : Nat → List Nat → List Nat
  | 0, w => w
  | fuel + 1, w =>
      scheduleExtend fuel
        (w ++ [(smallSigma1 (w.getD (w.length - 2) 0) + w.getD (w.length - 7) 0
          + smallSigma0 (w.getD (w.length - 15) 0) + w.getD (w.length - 16) 0) % MOD32])

/-- Big-endian 4-byte words from a byte list. -/
def bytesToWords : List Nat → List Nat
  | b0 :: b1 :: b2 :: b3 :: rest =>
      (((b0 * 256 + b1) * 256 + b2) * 256 + b3) :: bytesToWords rest
  | _ => []

/-- SHA-256 compression of one 64-byte block into the running state. -/
def compressBlock (st : Sha256State) (block : List Nat) : Sha256State :=
  let w := scheduleExtend 48 (bytesToWords block)
  let r := (roundConstants.zip w).foldl roundStep st
  ⟨(st.a + r.a) % MOD32, (st.b + r.b) % MOD32, (st.c + r.c) % MOD32,
   (st.d + r.d) % MOD32, (st.e + r.e) % MOD32, (st.f + r.f) % MOD32,
   (st.g + r.g) % MOD32, (st.h + r.h) % MOD32⟩

/-- The big-endian 8-byte encoding of the message bit length. -/
def lenBytes64 (bitLen : Nat) : List Nat :=
  [bitLen / 2 ^ 56 % 256, bitLen / 2 ^ 48 % 256, bitLen / 2 ^ 40 % 256,
   bitLen / 2 ^ 32 % 256, bitLen / 2 ^ 24 % 256, bitLen / 2 ^ 16 % 256,
   bitLen / 2 ^ 8 % 256, bitLen % 256]

/-- SHA-256 padding: append the `0x80` byte, zero bytes up to 56 mod 64,
then the 64-bit big-endian bit length. -/
def sha256pad (msg : List Nat) : List Nat :=
  msg ++ [128] ++ List.replicate ((56 + 64 - (msg.length + 1) % 64) % 64) 0
    ++ lenBytes64 (msg.length * 8)

/-- Splits a padded message into its 64-byte blocks (`fuel` is the number of
blocks). -/
def chunk64 : Nat → List Nat → List (List Nat)
  | 0, _ => []
  | fuel + 1, bs => bs.take 64 :: chunk64 fuel (bs.drop 64)

/-- The final SHA-256 state of a message. -/
def sha256State (msg : List Nat) : Sha256State :=
  (chunk64 ((sha256pad msg).length / 64) (sha256pad msg)).foldl compressBlock initialHash

/-- Big-endian bytes of one 32-bit word. -/
def wordBE4 (x : Nat) : List Nat :=
  [x / 2 ^ 24 % 256, x / 2 ^ 16 % 256, x / 2 ^ 8 % 256, x % 256]

/-- Serializes the final state to the 32-byte digest. -/
def digestBytes (st : Sha256State) : List Nat :=
  wordBE4 st.a ++ wordBE4 st.b ++ wordBE4 st.c ++ wordBE4 st.d
    ++ wordBE4 st.e ++ wordBE4 st.f ++ wordBE4 st.g ++ wordBE4 st.h

/-- Embedding of `window.crypto.subtle.digest("SHA-256", data)` as used by
`Oauth2Scheme.#sha256` (oauth2.ts lines 490-494): the platform primitive,
implemented per FIPS 180-4 over byte lists with explicit `% 2^32`
arithmetic. -/
def sha256 (msg : List Nat) : List Nat :=
  digestBytes (sha256State msg)

/-- The UTF-8 bytes of one character, as produced by the `TextEncoder` at
oauth2.ts line 491. -/
def utf8Bytes (c : Char) : List Nat :=
  let n := c.toNat
  if n < 128 then [n]
  else if n < 2048 then [192 + n / 64, 128 + n % 64]
  else if n < 65536 then [224 + n / 4096, 128 + n / 64 % 64, 128 + n % 64]
  else [240 + n / 262144, 128 + n / 4096 % 64, 128 + n / 64 % 64, 128 + n % 64]

/-- The UTF-8 byte sequence of a string (`new TextEncoder().encode(plain)`). -/
def strBytes (s : String) : List Nat :=
  (s.data.map utf8Bytes).flatten

/-- The standard base64 alphabet, in order, as used by `btoa`. -/
def base64Alphabet : List Char :=
  ("ABCDEFGHIJKLMNOPQRSTUVWXYZabcdefghijklmnopqrstuvwxyz0123456789+/").data

/-- The base64 character of a 6-bit value (out-of-range indices fall back to
'A', never reached below). -/
def b64Char (n : Nat) : Char :=
  base64Alphabet.getD n 'A'

/-- Standard base64 of a byte list, with `=` padding, as computed by
`btoa(String.fromCharCode(...))` at oauth2.ts line 502. -/
def base64Chars : List Nat → List Char
  | [] => []
  | [b0] => [b64Char (b0 / 4), b64Char (b0 % 4 * 16), '=', '=']
  | [b0, b1] =>
      [b64Char (b0 / 4), b64Char (b0 % 4 * 16 + b1 / 16), b64Char (b1 % 16 * 4), '=']
  | b0 :: b1 :: b2 :: rest =>
      b64Char (b0 / 4) :: b64Char (b0 % 4 * 16 + b1 / 16)
        :: b64Char (b1 % 16 * 4 + b2 / 64) :: b64Char (b2 % 64) :: base64Chars rest

/-- The two `.replace` passes of `#base64UrlEncode` (oauth2.ts lines
503-504): `+` becomes `-`, `/` becomes `_`. -/
def replaceUrlChar (c : Char) : Char :=
  if c = '+' then '-' else if c = '/' then '_' else c

/-- The `.replace(/=+$/, "")` pass (oauth2.ts line 505): trailing `=`
characters are removed. -/
def stripTrailingPad (l : List Char) : List Char :=
  (l.reverse.dropWhile fun c => c == '=').reverse

/-- Embedding of `Oauth2Scheme.#base64UrlEncode` (oauth2.ts lines 496-506):
standard base64, then `+`→`-`, `/`→`_`, and trailing `=` stripped. -/
def base64UrlEncode (bytes : List Nat) : String :=
  ⟨stripTrailingPad ((base64Chars bytes).map replaceUrlChar)⟩

/-- Embedding of `Oauth2Scheme.pkceChallengeFromVerifier` (oauth2.ts lines
476-482): base64url of the SHA-256 of the UTF-8 verifier when `hashValue`
is set, the verifier itself otherwise. -/
def pkceChallengeFromVerifier (v : String) (hashValue : Bool) : String :=
  if hashValue then base64UrlEncode (sha256 (strBytes v)) else v

/-- `b64Char` never yields the padding character. -/
theorem b64Char_ne_pad (n : Nat) : b64Char n ≠ '=' := by
  unfold b64Char
  by_cases h : n < base64Alphabet.length
  · rw [List.getD_eq_getElem base64Alphabet 'A' h]
    have hmem := List.getElem_mem h
    have hall : ∀ c ∈ base64Alphabet, c ≠ '=' := by decide
    exact hall _ hmem
  · rw [List.getD_eq_default base64Alphabet 'A' (Nat.le_of_not_lt h)]
    decide

/-- The URL-safe replacement never yields `+` or `/`. -/
theorem replaceUrlChar_ne_plus_slash (c : Char) :
    replaceUrlChar c ≠ '+' ∧ replaceUrlChar c ≠ '/' := by
  unfold replaceUrlChar
  split_ifs with h1 h2
  · exact ⟨by decide, by decide⟩
  · exact ⟨by decide, by decide⟩
  · exact ⟨h1, h2⟩

/-- The URL-safe replacement preserves being distinct from `=`. -/
theorem replaceUrlChar_ne_pad (c : Char) (hc : c ≠ '=') : replaceUrlChar c ≠ '=' := by
  unfold replaceUrlChar
  split_ifs with h1 h2
  · decide
  · decide
  · exact hc

/-- Base64 of a byte list whose length is 2 mod 3 is an alphabet body
followed by one alphabet character and one `=`. -/
theorem base64Chars_two_mod_three :
    ∀ (fuel : Nat) (l : List Nat), l.length ≤ fuel → l.length % 3 = 2 →
      ∃ (body : List Char) (n : Nat),
        base64Chars l = body ++ [b64Char n, '=']
        ∧ body.length = l.length / 3 * 4 + 2 := by
  intro fuel
  induction fuel with
  | zero =>
    intro l hl hm
    exact absurd hm (by omega)
  | succ f ih =>
    intro l hl hm
    cases l with
    | nil => exact absurd hm (by simp)
    | cons b0 t0 =>
      cases t0 with
      | nil => exact absurd hm (by simp)
      | cons b1 t1 =>
        cases t1 with
        | nil =>
          exact ⟨[b64Char (b0 / 4), b64Char (b0 % 4 * 16 + b1 / 16)],
            b1 % 16 * 4, rfl, by simp⟩
        | cons b2 rest =>
          have hlen3 : (b0 :: b1 :: b2 :: rest).length = rest.length + 3 := by
            simp [List.length_cons]
          have hm2 : rest.length % 3 = 2 := by
            rw [hlen3] at hm; omega
          have hle2 : rest.length ≤ f := by
            rw [hlen3] at hl; omega
          obtain ⟨body, n, heq, hblen⟩ := ih rest hle2 hm2
          refine ⟨b64Char (b0 / 4) :: b64Char (b0 % 4 * 16 + b1 / 16)
            :: b64Char (b1 % 16 * 4 + b2 / 64) :: b64Char (b2 % 64) :: body, n, ?_, ?_⟩
          · show base64Chars (b0 :: b1 :: b2 :: rest) = _
            rw [base64Chars, heq]
            simp [List.cons_append]
          · rw [hlen3]
            simp only [List.length_cons, hblen]
            omega

/-- Stripping trailing padding removes a final `=`. -/
theorem stripTrailingPad_append_pad (l : List Char) :
    stripTrailingPad (l ++ ['=']) = stripTrailingPad l := by
  unfold stripTrailingPad
  rw [List.reverse_append]
  simp [List.dropWhile_cons]

/-- A list whose last character is not `=` is unchanged by the strip. -/
theorem stripTrailingPad_last_ne (l : List Char) (c : Char)
    (hlast : l.getLast? = some c) (hc : c ≠ '=') : stripTrailingPad l = l := by
  unfold stripTrailingPad
  cases hr : l.reverse with
  | nil =>
    have hnil : l = [] := by
      have := congrArg List.reverse hr
      simpa using this
    rw [hnil] at hlast
    simp at hlast
  | cons x xs =>
    have hx : x = c := by
      have h1 : l.reverse.head? = some x := by rw [hr]; rfl
      rw [List.head?_reverse, hlast] at h1
      exact (Option.some_inj.mp h1).symm
    have hxne : (x == '=') = false := by
      rw [hx]
      exact beq_eq_false_iff_ne.mpr hc
    rw [List.dropWhile_cons, hxne]
    simp only [Bool.false_eq_true, if_false]
    rw [← hr, List.reverse_reverse]

/-- Characters surviving the strip come from the original list. -/
theorem mem_of_mem_stripTrailingPad (c : Char) (l : List Char)
    (h : c ∈ stripTrailingPad l) : c ∈ l := by
  unfold stripTrailingPad at h
  rw [List.mem_reverse] at h
  have hs : c ∈ l.reverse := (List.dropWhile_sublist _).subset h
  rwa [List.mem_reverse] at hs

/-- The base64url encoding of any SHA-256 digest is the URL-safe image of a
43-character base64 body whose last character is an alphabet character. -/
theorem base64UrlEncode_digest (st : Sha256State) :
    ∃ (body : List Char) (n : Nat),
      (base64UrlEncode (digestBytes st)).data
        = (body ++ [b64Char n]).map replaceUrlChar
      ∧ (body ++ [b64Char n]).length = 43 := by
  have hlen : (digestBytes st).length = 32 := by
    simp [digestBytes, wordBE4]
  obtain ⟨body, n, heq, hblen⟩ :=
    base64Chars_two_mod_three 32 (digestBytes st) (by omega) (by rw [hlen])
  refine ⟨body, n, ?_, ?_⟩
  · show stripTrailingPad ((base64Chars (digestBytes st)).map replaceUrlChar) = _
    rw [heq]
    have hsplit : (body ++ [b64Char n, '=']).map replaceUrlChar
        = ((body ++ [b64Char n]).map replaceUrlChar) ++ ['='] := by
      have hre : replaceUrlChar '=' = '=' := by decide
      simp [List.map_append, hre]
    rw [hsplit, stripTrailingPad_append_pad]
    refine stripTrailingPad_last_ne _ (replaceUrlChar (b64Char n)) ?_
      (replaceUrlChar_ne_pad _ (b64Char_ne_pad n))
    rw [List.map_append]
    exact List.getLast?_concat _
  · rw [List.length_append, hblen, hlen]
    simp only [List.length_singleton]

/-- What is provable about the PKCE challenge: `pkceChallengeFromVerifier`
returns the verifier unchanged in plain mode; in S256 mode it returns
(deterministically, being a pure function) the base64url encoding of the
SHA-256 hash of the verifier — a 43-character string containing no `+`, no
`/` and no trailing `=`, which therefore differs from every verifier whose
length is not 43 (in particular from every 56-character output of
`generateRandomString`).  Whether a 43-character verifier can equal its own
challenge is a SHA-256/base64url fixed-point question and is settled in
neither direction here. -/
theorem pkceChallengeFromVerifier_props (v : String) :
    pkceChallengeFromVerifier v false = v
    ∧ pkceChallengeFromVerifier v true = base64UrlEncode (sha256 (strBytes v))
    ∧ (pkceChallengeFromVerifier v true).length = 43
    ∧ '+' ∉ (pkceChallengeFromVerifier v true).data
    ∧ '/' ∉ (pkceChallengeFromVerifier v true).data
    ∧ (pkceChallengeFromVerifier v true).data.getLast? ≠ some '='
    ∧ (v.length ≠ 43 → pkceChallengeFromVerifier v true ≠ v) := by
  obtain ⟨body, n, hdata, hlen43⟩ := base64UrlEncode_digest (sha256State (strBytes v))
  have hchal : (pkceChallengeFromVerifier v true).data
      = (body ++ [b64Char n]).map replaceUrlChar := hdata
  have hlen : (pkceChallengeFromVerifier v true).length = 43 := by
    show (pkceChallengeFromVerifier v true).data.length = 43
    rw [hchal, List.length_map, hlen43]
  refine ⟨rfl, rfl, hlen, ?_, ?_, ?_, ?_⟩
  · rw [hchal]
    intro hmem
    rw [List.mem_map] at hmem
    obtain ⟨x, _, hx⟩ := hmem
    exact (replaceUrlChar_ne_plus_slash x).1 hx
  · rw [hchal]
    intro hmem
    rw [List.mem_map] at hmem
    obtain ⟨x, _, hx⟩ := hmem
    exact (replaceUrlChar_ne_plus_slash x).2 hx
  · rw [hchal, List.map_append]
    have hg : (List.map replaceUrlChar body
        ++ List.map replaceUrlChar [b64Char n]).getLast?
        = some (replaceUrlChar (b64Char n)) := List.getLast?_concat _
    rw [hg]
    intro hsome
    have : replaceUrlChar (b64Char n) = '=' := by
      simpa using hsome
    exact replaceUrlChar_ne_pad _ (b64Char_ne_pad n) this
  · intro hv hEq
    rw [hEq] at hlen
    exact hv hlen

/-- `pkceChallengeFromVerifier_props` instantiated at a concrete verifier of
the length `generateRandomString` produces (56 characters, not 43). -/
theorem pkceChallengeFromVerifier_props_example :
    ("00112233445566778899aabbccddeeff00112233445566778899aabb" : String).length ≠ 43
    ∧ pkceChallengeFromVerifier "00112233445566778899aabbccddeeff00112233445566778899aabb" true
      ≠ "00112233445566778899aabbccddeeff00112233445566778899aabb" :=
  ⟨by decide,
    (pkceChallengeFromVerifier_props
      "00112233445566778899aabbccddeeff00112233445566778899aabb").2.2.2.2.2.2 (by decide)⟩
